import Mathlib

/-!
Verification development for the RoxInvoice dispatch engine.

The definitions below are a shallow embedding of the backend source:
  * `src/backend/queue.js`   - the BullMQ worker (sender rotation, error
    classification, PDF persistence, spintax parser);
  * the SEG middleware file  - pre-flight security gate
    (`verifyInfrastructure`, `runPreFlightCheck`, `segMiddleware`);
  * the express server file  - clear / status endpoints.

External collaborators (SMTP transport, DNS resolver, the cheerio DOM
scans, Math.random) are modelled as explicit oracle parameters; the Redis
stores (paused senders, persisted PDFs, live logs) are modelled as pure
state threaded through the functions.
-/

namespace RoxInvoice

/-- One entry of the sender pool: `senderPool: ordered list of
    \x7bemail, appPassword, host?, port?\x7d` in the job data. -/
structure Sender where
  email : String
  appPassword : String
  host : Option String := none
  port : Option String := none
deriving DecidableEq, Repr

/-- Default value used for the (never reached) out-of-bounds case of
    indexing into the pool; the loop index is always in range. -/
def dummySender : Sender := { email := "", appPassword := "" }

/-- `deliveryMethod` of a job: `'attachment'` or `'link'`. -/
inductive DeliveryMethod
  | attachment
  | link
deriving DecidableEq, Repr

/-- Outcome of one `transporter.sendMail` call, as seen by the worker:
    either it resolves, or it rejects with an error message. -/
inductive SendResult
  | ok
  | err (msg : String)
deriving DecidableEq, Repr

/-- The shared Redis state the worker loop reads and writes:
    `paused_sender:<email>` keys (stored with their TTL in seconds, set by
    `connection.setex(..., 3600, 'true')`) and `invoice_pdf:<invoiceNumber>`
    keys (stored with their TTL in seconds, set by
    `connection.setex(..., 86400 * 30, ...)`). -/
structure WorkerStore where
  pausedSenders : List (String × Nat)
  pdfStore : List (String × Nat)
deriving DecidableEq, Repr

/-- `await connection.get('paused_sender:' + email)` is truthy exactly when
    a pause entry for this email is present. -/
def isPausedIn (pausedSenders : List (String × Nat)) (email : String) : Bool :=
  pausedSenders.any (fun p => p.1 = email)

/-- The keyword signatures of queue.js line 479:
    `msg.includes('Rate Limit') || msg.includes('421') || ...`. -/
def rateLimitKeywords : List String :=
  ["Rate Limit", "421", "450", "452", "550 5.4.5", "quota", "BadCredentials"]

/-- Lexical classification of a transport error message: true iff the raw
    message contains one of the rate-limit / quota / bad-credential
    keywords (JavaScript `String.includes` = substring containment). -/
def isRateLimitError (msg : String) : Bool :=
  rateLimitKeywords.any (fun kw => decide (kw.data <:+: msg.data))

/-- queue.js lines 455-466: in `'attachment'` mode the PDF buffer is only
    attached to the outgoing mail options (no store effect); in `'link'`
    mode `connection.setex('invoice_pdf:' + invoiceNumber, 86400 * 30, ...)`
    writes the rendered document into the persistent store.  This happens
    in the loop body before `transporter.sendMail` is attempted. -/
def pdfWrite (dm : DeliveryMethod) (inv : String) (store : WorkerStore) : WorkerStore :=
  match dm with
  | DeliveryMethod.attachment => store
  | DeliveryMethod.link =>
    { store with pdfStore := ("invoice_pdf:" ++ inv, 86400 * 30) :: store.pdfStore }

/-- Result of the rotation loop of queue.js lines 219-488:
    * `success e`    - `sendMail` resolved using sender `e` (`break`);
    * `fatalError m` - a transport error not matching the rate-limit
      signatures was re-thrown out of the loop (`throw err`);
    * `exhausted le` - the loop ran out of candidates; `le` is the last
      rate-limit-shaped error recorded in `lastError`, if any. -/
inductive LoopOutcome
  | success (senderEmail : String)
  | fatalError (msg : String)
  | exhausted (lastError : Option String)
deriving DecidableEq, Repr

/-- The rotation loop `for (let i = 0; i < senderPool.length; i++)` of
    queue.js lines 219-488, written with an explicit countdown `n` of
    remaining iterations (`n = senderPool.length - i` at every call).
    Per iteration: compute `senderIndex = (startIndex + i) % poolSize`,
    skip the candidate if its pause flag is set, otherwise build the
    message (pdfWrite models the `link`-mode `setex`) and attempt the
    send (oracle `send`); a rate-limit-shaped error pauses the sender for
    3600 s and continues, any other error exits the loop fatally. -/
def attemptLoopAux (pool : List Sender) (startIndex : Nat) (send : Nat → Sender → SendResult)
    (dm : DeliveryMethod) (inv : String) :
    Nat → Nat → WorkerStore → Option String → LoopOutcome × WorkerStore
  | 0, _, store, lastError => (LoopOutcome.exhausted lastError, store)
  | n + 1, i, store, lastError =>
    let candidate := pool.getD ((startIndex + i) % pool.length) dummySender
    if isPausedIn store.pausedSenders candidate.email then
      attemptLoopAux pool startIndex send dm inv n (i + 1) store lastError
    else
      let store1 := pdfWrite dm inv store
      match send i candidate with
      | SendResult.ok => (LoopOutcome.success candidate.email, store1)
      | SendResult.err msg =>
        if isRateLimitError msg then
          attemptLoopAux pool startIndex send dm inv n (i + 1)
            { store1 with pausedSenders := (candidate.email, 3600) :: store1.pausedSenders }
            (Option.some msg)
        else (LoopOutcome.fatalError msg, store1)

/-- The full rotation loop: `poolSize` iterations starting at `i = 0`,
    with `lastError` initially unset. -/
def attemptLoop (pool : List Sender) (startIndex : Nat) (send : Nat → Sender → SendResult)
    (dm : DeliveryMethod) (inv : String) (store : WorkerStore) : LoopOutcome × WorkerStore :=
  attemptLoopAux pool startIndex send dm inv pool.length 0 store none

/-- Terminal state of one job as recorded by BullMQ. -/
inductive JobOutcome
  | completed (invoiceNumber senderEmail : String)
  | failed (reason : String)
deriving DecidableEq, Repr

/-- queue.js line 492. -/
def allPausedMsg : String :=
  "All SMTP sender accounts are paused due to rate limits or invalid credentials."

/-- queue.js line 203. -/
def noPoolMsg : String := "No sender pool provided in job data."

/-- The whole job processor of queue.js lines 198-512 (throttle delay and
    telemetry omitted: they do not change the terminal state or the
    stores): reject an empty pool, run the rotation loop, then
    `if (!success) \x7b if (lastError) throw lastError; throw new Error(...) \x7d`. -/
def runJob (pool : List Sender) (startIndex : Nat) (send : Nat → Sender → SendResult)
    (dm : DeliveryMethod) (inv : String) (store : WorkerStore) : JobOutcome × WorkerStore :=
  if pool.length = 0 then (JobOutcome.failed noPoolMsg, store)
  else
    match attemptLoop pool startIndex send dm inv store with
    | (LoopOutcome.success e, st) => (JobOutcome.completed inv e, st)
    | (LoopOutcome.fatalError m, st) => (JobOutcome.failed m, st)
    | (LoopOutcome.exhausted (some m), st) => (JobOutcome.failed m, st)
    | (LoopOutcome.exhausted none, st) => (JobOutcome.failed allPausedMsg, st)

/-- queue.js line 217/220: the first candidate index examined for a job is
    `parseInt(job.id) % senderPool.length`. -/
def rotationStartOffset (jobIndex poolSize : Nat) : Nat := jobIndex % poolSize

/-! ## Pre-flight security gate (SEG middleware) -/

/-- A security flag as produced by the gate; the extra context fields of
    the source objects are collapsed to the flag type, its reason and the
    optional domain it concerns. -/
structure SecFlag where
  type : String
  reason : String
  domain : Option String := none
deriving DecidableEq, Repr

/-- Result of one `dns.resolveTxt` call: the joined TXT records, a
    not-found error (ENOTFOUND / ENODATA), or any other (transient)
    resolver error. -/
inductive DnsResult
  | records (rs : List String)
  | notFound
  | transientError
deriving DecidableEq, Repr

/-- `verifyInfrastructure(emailAddress)` of the SEG module: a missing
    sender email, or one without `@`, immediately yields an
    `Infrastructure Error` flag; otherwise the sender domain's TXT records
    must contain one starting `v=spf1`, and `_dmarc.<domain>` must contain
    one starting `v=DMARC1`; not-found DNS errors are flagged, transient
    resolver errors are only logged. -/
def verifyInfrastructure (dns : String → DnsResult) (emailAddress : Option String) :
    List SecFlag :=
  match emailAddress with
  | none => [{ type := "Infrastructure Error",
               reason := "Invalid sender email format provided." }]
  | some e =>
    if ¬ (e.contains '@') then
      [{ type := "Infrastructure Error",
         reason := "Invalid sender email format provided." }]
    else
      let domain := (e.splitOn "@").getD 1 ""
      let spfFlags :=
        match dns domain with
        | DnsResult.records rs =>
          if rs.any (fun r => r.startsWith "v=spf1") then []
          else [{ type := "Critical Delivery Risk (Infrastructure Hijacking)",
                  reason := "No valid SPF record found for domain.",
                  domain := some domain }]
        | DnsResult.notFound =>
          [{ type := "Critical Delivery Risk (SPF)",
             reason := "Failed to resolve TXT / SPF records for domain.",
             domain := some domain }]
        | DnsResult.transientError => []
      let dmarcFlags :=
        match dns ("_dmarc." ++ domain) with
        | DnsResult.records rs =>
          if rs.any (fun r => r.startsWith "v=DMARC1") then []
          else [{ type := "Critical Delivery Risk (Infrastructure Hijacking)",
                  reason := "No valid DMARC record found.",
                  domain := some ("_dmarc." ++ domain) }]
        | DnsResult.notFound =>
          [{ type := "Critical Delivery Risk (DMARC)",
             reason := "Failed to resolve DMARC records.",
             domain := some ("_dmarc." ++ domain) }]
        | DnsResult.transientError => []
      spfFlags ++ dmarcFlags

/-- `runPreFlightCheck(htmlBody, senderEmail)`: concatenation of the
    cloaking scan, the link scan (both synchronous DOM analyses, modelled
    as oracles on the body) and the infrastructure verification. -/
def runPreFlightCheck (cloakScan linkScan : String → List SecFlag)
    (dns : String → DnsResult) (htmlBody : String) (senderEmail : Option String) :
    List SecFlag :=
  cloakScan htmlBody ++ linkScan htmlBody ++ verifyInfrastructure dns senderEmail

/-- Observable decision of the express middleware: pass the request on to
    the dispatch handler (`next()`) or reject it with status 400 and the
    flag list. -/
inductive MiddlewareDecision
  | admitted
  | reject400 (flags : List SecFlag)
deriving DecidableEq, Repr

/-- `segMiddleware`: `if (!emailBody) return next();` (a missing or empty
    body is falsy), otherwise take `senderPool[0].email` as the primary
    sender if the pool is non-empty, run the pre-flight check and reject
    with the flags when any were produced. -/
def segMiddleware (cloakScan linkScan : String → List SecFlag) (dns : String → DnsResult)
    (emailBody : Option String) (senderPool : List Sender) : MiddlewareDecision :=
  match emailBody with
  | none => MiddlewareDecision.admitted
  | some body =>
    if body = "" then MiddlewareDecision.admitted
    else
      let primarySenderEmail : Option String :=
        if senderPool.length > 0 then some ((senderPool.getD 0 dummySender).email) else none
      let securityFlags := runPreFlightCheck cloakScan linkScan dns body primarySenderEmail
      if securityFlags.length > 0 then MiddlewareDecision.reject400 securityFlags
      else MiddlewareDecision.admitted

/-! ## Clear and status endpoints -/

/-- The observable server-side dispatch state: the queue's job counts per
    category and the `live_dispatch_logs` Redis list (the telemetry
    stream). -/
structure DispatchState where
  waiting : Nat
  active : Nat
  completed : Nat
  failed : Nat
  liveLogs : List String
deriving DecidableEq, Repr

/-- `DELETE /api/dispatch/clear`: `invoiceQueue.obliterate(\x7bforce: true\x7d)`
    (or, on a lock, pause + clean of every category + resume) removes all
    queue job state in every category; the `live_dispatch_logs` key is not
    touched by this endpoint. -/
def clearEndpoint (s : DispatchState) : DispatchState :=
  { s with waiting := 0, active := 0, completed := 0, failed := 0 }

/-- The part of the `GET /api/dispatch-status` response the claims are
    about: the four job counts and the raw telemetry event list. -/
structure DispatchStatus where
  waiting : Nat
  active : Nat
  completed : Nat
  failed : Nat
  liveLogs : List String
deriving DecidableEq, Repr

/-- `GET /api/dispatch-status`: `getJobCounts('waiting','active','completed',
    'failed')` plus `connection.lrange('live_dispatch_logs', 0, -1)`. -/
def dispatchStatus (s : DispatchState) : DispatchStatus :=
  { waiting := s.waiting, active := s.active, completed := s.completed,
    failed := s.failed, liveLogs := s.liveLogs }

/-! ## Spintax parser (queue.js lines 43-56)

`parseSpintax` repeatedly applies the global regex replace
`result.replace(spintaxRegex, cb)` with
`spintaxRegex = new RegExp("\\\x7b([^\x7b\x7d]*\\|[^\x7b\x7d]*)\\\x7d", "g")`
while `spintaxRegex.test(result)` holds.  A match of that regex is an
opening brace, a maximal run of non-brace characters that contains at
least one pipe, and a closing brace; the callback replaces the match by
`options[Math.floor(Math.random() * options.length)]` where
`options = contents.split('|')`.  The random draws are modelled by the
oracle `pick : Nat → List Char → Nat` (match counter and span contents to
a number whose remainder modulo `options.length` is the chosen index;
every sequence of random draws is realised by some oracle). -/

/-- A brace character. -/
def isBraceChar (c : Char) : Bool := c = '\x7b' || c = '\x7d'

/-- A character matched by the regex class excluding both braces. -/
def notBraceChar (c : Char) : Bool := !(isBraceChar c)

/-- Number of brace characters of a string; the decreasing measure of the
    re-scan loop. -/
def braceCount (cs : List Char) : Nat := (cs.filter isBraceChar).length

/-- JavaScript `contents.split('|')`: split at every pipe, keeping empty
    pieces; the result is always non-empty. -/
def splitPipe : List Char → List (List Char)
  | [] => [[]]
  | c :: rest =>
    if c = '|' then [] :: splitPipe rest
    else
      match splitPipe rest with
      | g :: gs => (c :: g) :: gs
      | [] => [[c]]

/-- After an opening brace, does a span match start here: the maximal
    non-brace run must be closed by a closing brace and contain a pipe. -/
def spanHere (rest : List Char) : Bool :=
  match rest.dropWhile notBraceChar with
  | '\x7d' :: _ => (rest.takeWhile notBraceChar).contains '|'
  | _ => false

/-- `spintaxRegex.test(text)`: some position starts a span consisting of
    an opening brace, non-brace contents with at least one pipe, and a
    closing brace. -/
def hasSpintaxMatch : List Char → Bool
  | [] => false
  | c :: rest => (decide (c = '\x7b') && spanHere rest) || hasSpintaxMatch rest

lemma hasSpintaxMatch_cons (c : Char) (rest : List Char) :
    hasSpintaxMatch (c :: rest) =
      ((decide (c = '\x7b') && spanHere rest) || hasSpintaxMatch rest) := rfl

lemma spanHere_pos (rest tail : List Char)
    (hdw : rest.dropWhile notBraceChar = '\x7d' :: tail)
    (hp : (rest.takeWhile notBraceChar).contains '|' = true) :
    spanHere rest = true := by
  simp only [spanHere]
  split
  · rename_i t heq
    rw [hdw] at heq
    cases heq
    exact hp
  · rename_i hno
    exact absurd hdw (hno tail)

lemma spanHere_negA (rest tail : List Char)
    (hdw : rest.dropWhile notBraceChar = '\x7d' :: tail)
    (hp : (rest.takeWhile notBraceChar).contains '|' = false) :
    spanHere rest = false := by
  simp only [spanHere]
  split
  · rename_i t heq
    rw [hdw] at heq
    cases heq
    exact hp
  · rfl

lemma spanHere_negB (rest : List Char)
    (hno : ∀ tail, ¬ rest.dropWhile notBraceChar = '\x7d' :: tail) :
    spanHere rest = false := by
  simp only [spanHere]

/-- `dropWhile` never lengthens a list (used for termination of the
    scanning pass). -/
lemma dropWhileLenLe (p : Char → Bool) (l : List Char) :
    (l.dropWhile p).length ≤ l.length := by
  induction l with
  | nil => simp
  | cons a l ih =>
    by_cases h : p a
    · simp only [List.dropWhile_cons_of_pos h]
      exact Nat.le_succ_of_le ih
    · simp [List.dropWhile_cons_of_neg h]

/-- One global `replace` pass: scan left to right; at an opening brace
    whose maximal non-brace run is followed by a closing brace and
    contains a pipe, replace the whole span by the option chosen by the
    oracle and continue after the span; otherwise copy the character. -/
def onePass (pick : Nat → List Char → Nat) : Nat → List Char → List Char × Nat
  | k, [] => ([], k)
  | k, c :: rest =>
    if c = '\x7b' then
      match hdw : rest.dropWhile notBraceChar with
      | '\x7d' :: tail =>
        if (rest.takeWhile notBraceChar).contains '|' then
          let content := rest.takeWhile notBraceChar
          let opts := splitPipe content
          let repl := opts.getD (pick k content % opts.length) []
          let r := onePass pick (k + 1) tail
          (repl ++ r.1, r.2)
        else
          let r := onePass pick k rest
          ('\x7b' :: r.1, r.2)
      | _ =>
        let r := onePass pick k rest
        ('\x7b' :: r.1, r.2)
    else
      let r := onePass pick k rest
      (c :: r.1, r.2)
termination_by k cs => cs.length
decreasing_by
  all_goals simp only [List.length_cons]
  · have h1 : ('\x7d' :: tail).length ≤ rest.length := by
      rw [← hdw]
      exact dropWhileLenLe notBraceChar rest
    simp only [List.length_cons] at h1
    omega
  · omega
  · omega
  · omega

/-! Step equations for `onePass`, used throughout the development. -/

lemma onePass_nil (pick : Nat → List Char → Nat) (k : Nat) : onePass pick k [] = ([], k) := by
  simp [onePass]

lemma onePass_copy (pick : Nat → List Char → Nat) (k : Nat) (c : Char) (rest : List Char)
    (hc : ¬ c = '\x7b') :
    onePass pick k (c :: rest) = (c :: (onePass pick k rest).1, (onePass pick k rest).2) := by
  simp only [onePass]
  rw [if_neg hc]

lemma onePass_span (pick : Nat → List Char → Nat) (k : Nat) (rest tail : List Char)
    (hdw : rest.dropWhile notBraceChar = '\x7d' :: tail)
    (hp : (rest.takeWhile notBraceChar).contains '|' = true) :
    onePass pick k ('\x7b' :: rest) =
      ((splitPipe (rest.takeWhile notBraceChar)).getD
          (pick k (rest.takeWhile notBraceChar) % (splitPipe (rest.takeWhile notBraceChar)).length) []
        ++ (onePass pick (k + 1) tail).1,
       (onePass pick (k + 1) tail).2) := by
  simp only [onePass, if_true]
  split
  · rename_i t heq
    rw [hdw] at heq
    cases heq
    rw [if_pos hp]
  · rename_i hno
    exact absurd hdw (hno tail)

lemma onePass_skipA (pick : Nat → List Char → Nat) (k : Nat) (rest tail : List Char)
    (hdw : rest.dropWhile notBraceChar = '\x7d' :: tail)
    (hp : (rest.takeWhile notBraceChar).contains '|' = false) :
    onePass pick k ('\x7b' :: rest) =
      ('\x7b' :: (onePass pick k rest).1, (onePass pick k rest).2) := by
  simp only [onePass, if_true]
  split
  · rename_i t heq
    rw [hdw] at heq
    cases heq
    rw [if_neg (by simpa using hp)]
  · rfl

lemma onePass_skipB (pick : Nat → List Char → Nat) (k : Nat) (rest : List Char)
    (hno : ∀ tail, ¬ rest.dropWhile notBraceChar = '\x7d' :: tail) :
    onePass pick k ('\x7b' :: rest) =
      ('\x7b' :: (onePass pick k rest).1, (onePass pick k rest).2) := by
  simp only [onePass, if_true]

/-! Facts about `splitPipe` and `braceCount`. -/

lemma splitPipe_ne_nil (l : List Char) : splitPipe l ≠ [] := by
  induction l with
  | nil => simp [splitPipe]
  | cons c rest ih =>
    by_cases h : c = '|'
    · simp [splitPipe, h]
    · simp only [splitPipe, if_neg h]
      cases hs : splitPipe rest with
      | nil => exact absurd hs ih
      | cons g gs => simp

lemma splitPipe_sublist (l : List Char) : ∀ o ∈ splitPipe l, o.Sublist l := by
  induction l with
  | nil =>
    intro o ho
    simp [splitPipe] at ho
    simp [ho]
  | cons c rest ih =>
    intro o ho
    by_cases h : c = '|'
    · simp only [splitPipe, if_pos h] at ho
      rcases List.mem_cons.mp ho with ho | ho
      · simp [ho]
      · exact (ih o ho).cons c
    · simp only [splitPipe, if_neg h] at ho
      cases hs : splitPipe rest with
      | nil => exact absurd hs (splitPipe_ne_nil rest)
      | cons g gs =>
        rw [hs] at ho
        rcases List.mem_cons.mp ho with ho | ho
        · subst ho
          exact (ih g (by rw [hs]; exact List.mem_cons_self g gs)).cons₂ c
        · exact (ih o (by rw [hs]; exact List.mem_cons_of_mem g ho)).cons c

lemma braceCount_append (a b : List Char) :
    braceCount (a ++ b) = braceCount a + braceCount b := by
  simp [braceCount, List.filter_append]

lemma braceCount_cons (c : Char) (l : List Char) :
    braceCount (c :: l) = (if isBraceChar c then 1 else 0) + braceCount l := by
  by_cases h : isBraceChar c = true
  · simp [braceCount, List.filter_cons, h, Nat.add_comm]
  · simp [braceCount, List.filter_cons, h]

lemma braceCount_le_of_sublist {s l : List Char} (h : s.Sublist l) :
    braceCount s ≤ braceCount l :=
  List.Sublist.length_le (List.Sublist.filter isBraceChar h)

lemma braceCount_takeWhile (l : List Char) :
    braceCount (l.takeWhile notBraceChar) = 0 := by
  simp only [braceCount, List.length_eq_zero]
  rw [List.filter_eq_nil]
  intro a ha
  have := List.mem_takeWhile_imp ha
  simp [notBraceChar] at this
  simp [this]

lemma braceCount_getD_splitPipe (content : List Char) (i : Nat)
    (hc : braceCount content = 0) :
    braceCount ((splitPipe content).getD i []) = 0 := by
  by_cases h : i < (splitPipe content).length
  · have hmem : (splitPipe content).getD i [] ∈ splitPipe content := by
      rw [List.getD_eq_getElem (splitPipe content) [] h]
      exact (splitPipe content).getElem_mem h
    have := braceCount_le_of_sublist (splitPipe_sublist content _ hmem)
    omega
  · rw [List.getD_eq_default (splitPipe content) [] (Nat.le_of_not_lt h)]
    simp [braceCount]

/-- One pass never increases the brace count, and strictly decreases it
    when a spintax span is present (the measure of the re-scan loop). -/
lemma onePass_bc (pick : Nat → List Char → Nat) (k : Nat) (cs : List Char) :
    braceCount (onePass pick k cs).1 ≤ braceCount cs ∧
      (hasSpintaxMatch cs = true → braceCount (onePass pick k cs).1 < braceCount cs) := by
  induction k, cs using onePass.induct pick with
  | case1 k =>
    simp [onePass_nil, hasSpintaxMatch]
  | case2 k rest tail hdw hp ih =>
    rw [onePass_span pick k rest tail hdw hp]
    have hrest : rest.takeWhile notBraceChar ++ '\x7d' :: tail = rest := by
      rw [← hdw]
      exact List.takeWhile_append_dropWhile notBraceChar rest
    have h1 : braceCount ('\x7b' :: rest) = braceCount tail + 2 := by
      rw [braceCount_cons, ← hrest, braceCount_append, braceCount_takeWhile, braceCount_cons]
      simp only [isBraceChar]
      simp
      omega
    have h2 : braceCount ((splitPipe (rest.takeWhile notBraceChar)).getD
        (pick k (rest.takeWhile notBraceChar) % (splitPipe (rest.takeWhile notBraceChar)).length) []
        ++ (onePass pick (k + 1) tail).1)
        = braceCount (onePass pick (k + 1) tail).1 := by
      rw [braceCount_append, braceCount_getD_splitPipe _ _ (braceCount_takeWhile rest)]
      omega
    rw [h2, h1]
    have := ih.1
    constructor
    · omega
    · intro hmt
      omega
  | case3 k rest tail hdw hp ih =>
    have hp' : (rest.takeWhile notBraceChar).contains '|' = false := by
      simpa using hp
    rw [onePass_skipA pick k rest tail hdw hp']
    have hm : hasSpintaxMatch ('\x7b' :: rest) = hasSpintaxMatch rest := by
      simp [hasSpintaxMatch, spanHere_negA rest tail hdw hp']
    rw [braceCount_cons, braceCount_cons ('\x7b' : Char) rest, hm]
    constructor
    · have := ih.1
      omega
    · intro hmt
      have := ih.2 hmt
      omega
  | case4 k rest hno ih =>
    rw [onePass_skipB pick k rest (fun tail h => hno tail h)]
    have hm : hasSpintaxMatch ('\x7b' :: rest) = hasSpintaxMatch rest := by
      simp [hasSpintaxMatch, spanHere_negB rest (fun tail h => hno tail h)]
    rw [braceCount_cons, braceCount_cons ('\x7b' : Char) rest, hm]
    constructor
    · have := ih.1
      omega
    · intro hmt
      have := ih.2 hmt
      omega
  | case5 k c rest hc ih =>
    rw [onePass_copy pick k c rest hc]
    have hm : hasSpintaxMatch (c :: rest) = hasSpintaxMatch rest := by
      simp [hasSpintaxMatch, hc]
    rw [braceCount_cons, braceCount_cons c rest, hm]
    constructor
    · have := ih.1
      omega
    · intro hmt
      have := ih.2 hmt
      omega

/-- The re-scan loop of `parseSpintax`:
    `while (spintaxRegex.test(result)) result = result.replace(spintaxRegex, cb)`.
    Returns the final text together with the number of replace passes
    performed.  There is no iteration cap in the source; the loop
    terminates because each pass strictly reduces the brace count. -/
def parseSpintaxAux (pick : Nat → List Char → Nat) (k : Nat) (cs : List Char) :
    List Char × Nat :=
  if h : hasSpintaxMatch cs then
    ((parseSpintaxAux pick (onePass pick k cs).2 (onePass pick k cs).1).1,
     (parseSpintaxAux pick (onePass pick k cs).2 (onePass pick k cs).1).2 + 1)
  else (cs, 0)
termination_by braceCount cs
decreasing_by exact (onePass_bc pick k cs).2 h

/-- `parseSpintax(text)` of queue.js lines 43-56 (on the character list of
    the text; a falsy input is returned unchanged by the source, and the
    empty list contains no match, so the guard needs no separate case). -/
def parseSpintax (pick : Nat → List Char → Nat) (k : Nat) (text : List Char) : List Char :=
  (parseSpintaxAux pick k text).1

/-- Number of replace passes the re-scan loop performs on `text`. -/
def numPasses (pick : Nat → List Char → Nat) (k : Nat) (text : List Char) : Nat :=
  (parseSpintaxAux pick k text).2

lemma parseSpintaxAux_pos (pick : Nat → List Char → Nat) (k : Nat) (cs : List Char)
    (h : hasSpintaxMatch cs = true) :
    parseSpintaxAux pick k cs =
      ((parseSpintaxAux pick (onePass pick k cs).2 (onePass pick k cs).1).1,
       (parseSpintaxAux pick (onePass pick k cs).2 (onePass pick k cs).1).2 + 1) := by
  rw [parseSpintaxAux]
  simp [h]

lemma parseSpintaxAux_neg (pick : Nat → List Char → Nat) (k : Nat) (cs : List Char)
    (h : hasSpintaxMatch cs = false) :
    parseSpintaxAux pick k cs = (cs, 0) := by
  rw [parseSpintaxAux]
  simp [h]

/-! ## Step equations and helper lemmas for the rotation loop -/

lemma pdfWrite_pausedSenders (dm : DeliveryMethod) (inv : String) (store : WorkerStore) :
    (pdfWrite dm inv store).pausedSenders = store.pausedSenders := by
  cases dm <;> rfl

lemma pdfWrite_attachment (inv : String) (store : WorkerStore) :
    pdfWrite DeliveryMethod.attachment inv store = store := rfl

lemma isPausedIn_cons (p : String × Nat) (l : List (String × Nat)) (e : String)
    (h : isPausedIn l e = true) : isPausedIn (p :: l) e = true := by
  simp only [isPausedIn, List.any_cons]
  simp only [isPausedIn] at h
  rw [h]
  simp

lemma attemptLoopAux_zero (pool : List Sender) (startIndex : Nat)
    (send : Nat → Sender → SendResult) (dm : DeliveryMethod) (inv : String)
    (i : Nat) (store : WorkerStore) (le : Option String) :
    attemptLoopAux pool startIndex send dm inv 0 i store le =
      (LoopOutcome.exhausted le, store) := rfl

lemma attemptLoopAux_skip (pool : List Sender) (startIndex : Nat)
    (send : Nat → Sender → SendResult) (dm : DeliveryMethod) (inv : String)
    (n i : Nat) (store : WorkerStore) (le : Option String)
    (hp : isPausedIn store.pausedSenders
      (pool.getD ((startIndex + i) % pool.length) dummySender).email = true) :
    attemptLoopAux pool startIndex send dm inv (n + 1) i store le =
      attemptLoopAux pool startIndex send dm inv n (i + 1) store le := by
  simp only [attemptLoopAux]
  rw [if_pos hp]

lemma attemptLoopAux_ok (pool : List Sender) (startIndex : Nat)
    (send : Nat → Sender → SendResult) (dm : DeliveryMethod) (inv : String)
    (n i : Nat) (store : WorkerStore) (le : Option String)
    (hp : isPausedIn store.pausedSenders
      (pool.getD ((startIndex + i) % pool.length) dummySender).email = false)
    (hsend : send i (pool.getD ((startIndex + i) % pool.length) dummySender) = SendResult.ok) :
    attemptLoopAux pool startIndex send dm inv (n + 1) i store le =
      (LoopOutcome.success (pool.getD ((startIndex + i) % pool.length) dummySender).email,
       pdfWrite dm inv store) := by
  simp only [attemptLoopAux, hsend]
  rw [if_neg (by rw [hp]; simp)]

lemma attemptLoopAux_rl (pool : List Sender) (startIndex : Nat)
    (send : Nat → Sender → SendResult) (dm : DeliveryMethod) (inv : String)
    (n i : Nat) (store : WorkerStore) (le : Option String) (msg : String)
    (hp : isPausedIn store.pausedSenders
      (pool.getD ((startIndex + i) % pool.length) dummySender).email = false)
    (hsend : send i (pool.getD ((startIndex + i) % pool.length) dummySender) =
      SendResult.err msg)
    (hrl : isRateLimitError msg = true) :
    attemptLoopAux pool startIndex send dm inv (n + 1) i store le =
      attemptLoopAux pool startIndex send dm inv n (i + 1)
        { pdfWrite dm inv store with
          pausedSenders :=
            ((pool.getD ((startIndex + i) % pool.length) dummySender).email, 3600) ::
              (pdfWrite dm inv store).pausedSenders }
        (some msg) := by
  simp only [attemptLoopAux, hsend]
  rw [if_neg (by rw [hp]; simp)]
  rw [if_pos hrl]

lemma attemptLoopAux_fatal (pool : List Sender) (startIndex : Nat)
    (send : Nat → Sender → SendResult) (dm : DeliveryMethod) (inv : String)
    (n i : Nat) (store : WorkerStore) (le : Option String) (msg : String)
    (hp : isPausedIn store.pausedSenders
      (pool.getD ((startIndex + i) % pool.length) dummySender).email = false)
    (hsend : send i (pool.getD ((startIndex + i) % pool.length) dummySender) =
      SendResult.err msg)
    (hrl : isRateLimitError msg = false) :
    attemptLoopAux pool startIndex send dm inv (n + 1) i store le =
      (LoopOutcome.fatalError msg, pdfWrite dm inv store) := by
  simp only [attemptLoopAux, hsend]
  rw [if_neg (by rw [hp]; simp)]
  rw [if_neg (by rw [hrl]; simp)]

/-- A sender whose pause flag is set before the loop runs can never be the
    success result: pause flags only accumulate, and a paused candidate is
    never selected. -/
lemma attemptLoopAux_paused_no_success (pool : List Sender) (startIndex : Nat)
    (send : Nat → Sender → SendResult) (dm : DeliveryMethod) (inv : String) :
    ∀ (n i : Nat) (store : WorkerStore) (le : Option String) (e : String),
      isPausedIn store.pausedSenders e = true →
      (attemptLoopAux pool startIndex send dm inv n i store le).1 ≠ LoopOutcome.success e := by
  intro n
  induction n with
  | zero =>
    intro i store le e he
    simp [attemptLoopAux_zero]
  | succ n ih =>
    intro i store le e he
    by_cases hp : isPausedIn store.pausedSenders
        (pool.getD ((startIndex + i) % pool.length) dummySender).email = true
    · rw [attemptLoopAux_skip pool startIndex send dm inv n i store le hp]
      exact ih (i + 1) store le e he
    · have hp' : isPausedIn store.pausedSenders
          (pool.getD ((startIndex + i) % pool.length) dummySender).email = false := by
        simpa using hp
      cases hsend : send i (pool.getD ((startIndex + i) % pool.length) dummySender) with
      | ok =>
        rw [attemptLoopAux_ok pool startIndex send dm inv n i store le hp' hsend]
        intro hcon
        have hee : (pool.getD ((startIndex + i) % pool.length) dummySender).email = e := by
          cases hcon
          rfl
        rw [hee, he] at hp'
        simp at hp'
      | err msg =>
        by_cases hrl : isRateLimitError msg = true
        · rw [attemptLoopAux_rl pool startIndex send dm inv n i store le msg hp' hsend hrl]
          apply ih
          apply isPausedIn_cons
          rw [pdfWrite_pausedSenders]
          exact he
        · have hrl' : isRateLimitError msg = false := by simpa using hrl
          rw [attemptLoopAux_fatal pool startIndex send dm inv n i store le msg hp' hsend hrl']
          simp

/-- When every pool member is paused in the store, the loop only skips and
    ends exhausted with the store untouched. -/
lemma attemptLoopAux_all_paused (pool : List Sender) (startIndex : Nat)
    (send : Nat → Sender → SendResult) (dm : DeliveryMethod) (inv : String)
    (hpool : pool.length ≠ 0) :
    ∀ (n i : Nat) (store : WorkerStore) (le : Option String),
      (∀ s ∈ pool, isPausedIn store.pausedSenders s.email = true) →
      attemptLoopAux pool startIndex send dm inv n i store le =
        (LoopOutcome.exhausted le, store) := by
  intro n
  induction n with
  | zero =>
    intro i store le _
    exact attemptLoopAux_zero pool startIndex send dm inv i store le
  | succ n ih =>
    intro i store le hall
    have hidx : (startIndex + i) % pool.length < pool.length :=
      Nat.mod_lt _ (Nat.pos_of_ne_zero hpool)
    have hmem : pool.getD ((startIndex + i) % pool.length) dummySender ∈ pool := by
      rw [List.getD_eq_getElem pool dummySender hidx]
      exact pool.getElem_mem hidx
    rw [attemptLoopAux_skip pool startIndex send dm inv n i store le (hall _ hmem)]
    exact ih (i + 1) store le hall

/-- The attachment mode never touches the PDF store. -/
lemma attemptLoopAux_pdf_attachment (pool : List Sender) (startIndex : Nat)
    (send : Nat → Sender → SendResult) (inv : String) :
    ∀ (n i : Nat) (store : WorkerStore) (le : Option String),
      ((attemptLoopAux pool startIndex send DeliveryMethod.attachment inv n i store le).2).pdfStore
        = store.pdfStore := by
  intro n
  induction n with
  | zero =>
    intro i store le
    simp [attemptLoopAux_zero]
  | succ n ih =>
    intro i store le
    by_cases hp : isPausedIn store.pausedSenders
        (pool.getD ((startIndex + i) % pool.length) dummySender).email = true
    · rw [attemptLoopAux_skip pool startIndex send _ inv n i store le hp]
      exact ih (i + 1) store le
    · have hp' : isPausedIn store.pausedSenders
          (pool.getD ((startIndex + i) % pool.length) dummySender).email = false := by
        simpa using hp
      cases hsend : send i (pool.getD ((startIndex + i) % pool.length) dummySender) with
      | ok =>
        rw [attemptLoopAux_ok pool startIndex send _ inv n i store le hp' hsend]
        rfl
      | err msg =>
        by_cases hrl : isRateLimitError msg = true
        · rw [attemptLoopAux_rl pool startIndex send _ inv n i store le msg hp' hsend hrl]
          exact ih (i + 1) _ _
        · have hrl' : isRateLimitError msg = false := by simpa using hrl
          rw [attemptLoopAux_fatal pool startIndex send _ inv n i store le msg hp' hsend hrl']
          rfl

/-- PDF store entries are never removed by the loop. -/
lemma attemptLoopAux_pdf_mono (pool : List Sender) (startIndex : Nat)
    (send : Nat → Sender → SendResult) (dm : DeliveryMethod) (inv : String) :
    ∀ (n i : Nat) (store : WorkerStore) (le : Option String) (x : String × Nat),
      x ∈ store.pdfStore →
      x ∈ ((attemptLoopAux pool startIndex send dm inv n i store le).2).pdfStore := by
  intro n
  induction n with
  | zero =>
    intro i store le x hx
    simpa [attemptLoopAux_zero] using hx
  | succ n ih =>
    intro i store le x hx
    have hx1 : x ∈ (pdfWrite dm inv store).pdfStore := by
      cases dm
      · exact hx
      · exact List.mem_cons_of_mem _ hx
    by_cases hp : isPausedIn store.pausedSenders
        (pool.getD ((startIndex + i) % pool.length) dummySender).email = true
    · rw [attemptLoopAux_skip pool startIndex send dm inv n i store le hp]
      exact ih (i + 1) store le x hx
    · have hp' : isPausedIn store.pausedSenders
          (pool.getD ((startIndex + i) % pool.length) dummySender).email = false := by
        simpa using hp
      cases hsend : send i (pool.getD ((startIndex + i) % pool.length) dummySender) with
      | ok =>
        rw [attemptLoopAux_ok pool startIndex send dm inv n i store le hp' hsend]
        exact hx1
      | err msg =>
        by_cases hrl : isRateLimitError msg = true
        · rw [attemptLoopAux_rl pool startIndex send dm inv n i store le msg hp' hsend hrl]
          exact ih (i + 1) _ _ x hx1
        · have hrl' : isRateLimitError msg = false := by simpa using hrl
          rw [attemptLoopAux_fatal pool startIndex send dm inv n i store le msg hp' hsend hrl']
          exact hx1

/-- Once `lastError` is set it can never revert to `none`. -/
lemma attemptLoopAux_lastError_set (pool : List Sender) (startIndex : Nat)
    (send : Nat → Sender → SendResult) (dm : DeliveryMethod) (inv : String) :
    ∀ (n i : Nat) (store : WorkerStore) (m : String),
      (attemptLoopAux pool startIndex send dm inv n i store (some m)).1 ≠
        LoopOutcome.exhausted none := by
  intro n
  induction n with
  | zero =>
    intro i store m
    simp [attemptLoopAux_zero]
  | succ n ih =>
    intro i store m
    by_cases hp : isPausedIn store.pausedSenders
        (pool.getD ((startIndex + i) % pool.length) dummySender).email = true
    · rw [attemptLoopAux_skip pool startIndex send dm inv n i store (some m) hp]
      exact ih (i + 1) store m
    · have hp' : isPausedIn store.pausedSenders
          (pool.getD ((startIndex + i) % pool.length) dummySender).email = false := by
        simpa using hp
      cases hsend : send i (pool.getD ((startIndex + i) % pool.length) dummySender) with
      | ok =>
        rw [attemptLoopAux_ok pool startIndex send dm inv n i store (some m) hp' hsend]
        simp
      | err msg =>
        by_cases hrl : isRateLimitError msg = true
        · rw [attemptLoopAux_rl pool startIndex send dm inv n i store (some m) msg hp' hsend hrl]
          exact ih (i + 1) _ msg
        · have hrl' : isRateLimitError msg = false := by simpa using hrl
          rw [attemptLoopAux_fatal pool startIndex send dm inv n i store (some m) msg hp' hsend hrl']
          simp

/-- If the loop (started with no recorded error) ends exhausted with no
    recorded error, then no send was ever attempted and the store is
    returned unchanged. -/
lemma attemptLoopAux_exhausted_none_store (pool : List Sender) (startIndex : Nat)
    (send : Nat → Sender → SendResult) (dm : DeliveryMethod) (inv : String) :
    ∀ (n i : Nat) (store : WorkerStore),
      (attemptLoopAux pool startIndex send dm inv n i store none).1 =
        LoopOutcome.exhausted none →
      (attemptLoopAux pool startIndex send dm inv n i store none).2 = store := by
  intro n
  induction n with
  | zero =>
    intro i store _
    simp [attemptLoopAux_zero]
  | succ n ih =>
    intro i store hout
    by_cases hp : isPausedIn store.pausedSenders
        (pool.getD ((startIndex + i) % pool.length) dummySender).email = true
    · rw [attemptLoopAux_skip pool startIndex send dm inv n i store none hp] at hout ⊢
      exact ih (i + 1) store hout
    · have hp' : isPausedIn store.pausedSenders
          (pool.getD ((startIndex + i) % pool.length) dummySender).email = false := by
        simpa using hp
      cases hsend : send i (pool.getD ((startIndex + i) % pool.length) dummySender) with
      | ok =>
        rw [attemptLoopAux_ok pool startIndex send dm inv n i store none hp' hsend] at hout
        simp at hout
      | err msg =>
        by_cases hrl : isRateLimitError msg = true
        · rw [attemptLoopAux_rl pool startIndex send dm inv n i store none msg hp' hsend hrl]
            at hout
          exact absurd hout
            (attemptLoopAux_lastError_set pool startIndex send dm inv n (i + 1) _ msg)
        · have hrl' : isRateLimitError msg = false := by simpa using hrl
          rw [attemptLoopAux_fatal pool startIndex send dm inv n i store none msg hp' hsend hrl']
            at hout
          simp at hout

/-- In link mode, as soon as one send is attempted the PDF entry for the
    job's invoice number is in the store, whatever the attempt's outcome. -/
lemma attemptLoopAux_link_writes (pool : List Sender) (startIndex : Nat)
    (send : Nat → Sender → SendResult) (inv : String) :
    ∀ (n i : Nat) (store : WorkerStore) (le : Option String),
      ((∃ e, (attemptLoopAux pool startIndex send DeliveryMethod.link inv n i store le).1 =
          LoopOutcome.success e) ∨
       (∃ m, (attemptLoopAux pool startIndex send DeliveryMethod.link inv n i store le).1 =
          LoopOutcome.fatalError m) ∨
       (le = none ∧ ∃ m,
        (attemptLoopAux pool startIndex send DeliveryMethod.link inv n i store le).1 =
          LoopOutcome.exhausted (some m))) →
      ("invoice_pdf:" ++ inv, 86400 * 30) ∈
        ((attemptLoopAux pool startIndex send DeliveryMethod.link inv n i store le).2).pdfStore := by
  intro n
  induction n with
  | zero =>
    intro i store le hout
    rw [attemptLoopAux_zero] at hout
    rcases hout with ⟨e, h⟩ | ⟨m, h⟩ | ⟨hle, m, h⟩
    · exact absurd h (by simp)
    · exact absurd h (by simp)
    · rw [hle] at h
      exact absurd h (by simp)
  | succ n ih =>
    intro i store le hout
    have hentry : ("invoice_pdf:" ++ inv, 86400 * 30) ∈
        (pdfWrite DeliveryMethod.link inv store).pdfStore := by
      simp [pdfWrite]
    by_cases hp : isPausedIn store.pausedSenders
        (pool.getD ((startIndex + i) % pool.length) dummySender).email = true
    · rw [attemptLoopAux_skip pool startIndex send _ inv n i store le hp] at hout ⊢
      exact ih (i + 1) store le hout
    · have hp' : isPausedIn store.pausedSenders
          (pool.getD ((startIndex + i) % pool.length) dummySender).email = false := by
        simpa using hp
      cases hsend : send i (pool.getD ((startIndex + i) % pool.length) dummySender) with
      | ok =>
        rw [attemptLoopAux_ok pool startIndex send _ inv n i store le hp' hsend]
        exact hentry
      | err msg =>
        by_cases hrl : isRateLimitError msg = true
        · rw [attemptLoopAux_rl pool startIndex send _ inv n i store le msg hp' hsend hrl]
          apply attemptLoopAux_pdf_mono
          exact hentry
        · have hrl' : isRateLimitError msg = false := by simpa using hrl
          rw [attemptLoopAux_fatal pool startIndex send _ inv n i store le msg hp' hsend hrl']
          exact hentry

/-- A fatal transport error surfaces as the job's failure reason. -/
lemma runJob_fatal (pool : List Sender) (startIndex : Nat) (send : Nat → Sender → SendResult)
    (dm : DeliveryMethod) (inv : String) (store0 : WorkerStore) (msg : String)
    (hlen : ¬ pool.length = 0)
    (hft : (attemptLoop pool startIndex send dm inv store0).1 = LoopOutcome.fatalError msg) :
    runJob pool startIndex send dm inv store0 =
      (JobOutcome.failed msg, (attemptLoop pool startIndex send dm inv store0).2) := by
  have h2 : attemptLoop pool startIndex send dm inv store0 =
      (LoopOutcome.fatalError msg, (attemptLoop pool startIndex send dm inv store0).2) := by
    rw [← hft]
  unfold runJob
  rw [if_neg hlen, h2]

/-! ## Concrete values used by witnesses and counterexamples -/

def senderA : Sender := { email := "alice@example.com", appPassword := "pw-a" }

def senderB : Sender := { email := "bob@example.com", appPassword := "pw-b" }

/-! ## Claim theorems -/

/-- C1: for every job and every sender whose pause flag is set in the
    shared store at the time the rotation loop examines it, the rotation
    policy does not select that sender for the send attempt (first
    conjunct: the iteration is a pure skip, moving to the next candidate
    in rotation order with nothing else changed); and a sender paused in
    the store can never be the selected / successful sender of the loop
    (second conjunct), since pause flags only accumulate during a job. -/
theorem C1_paused_sender_never_selected :
    (∀ (pool : List Sender) (startIndex : Nat) (send : Nat → Sender → SendResult)
       (dm : DeliveryMethod) (inv : String) (n i : Nat) (store : WorkerStore)
       (le : Option String),
       isPausedIn store.pausedSenders
         (pool.getD ((startIndex + i) % pool.length) dummySender).email = true →
       attemptLoopAux pool startIndex send dm inv (n + 1) i store le =
         attemptLoopAux pool startIndex send dm inv n (i + 1) store le)
    ∧ (∀ (pool : List Sender) (startIndex : Nat) (send : Nat → Sender → SendResult)
       (dm : DeliveryMethod) (inv : String) (n i : Nat) (store : WorkerStore)
       (le : Option String) (e : String),
       isPausedIn store.pausedSenders e = true →
       (attemptLoopAux pool startIndex send dm inv n i store le).1 ≠ LoopOutcome.success e) :=
  ⟨fun pool startIndex send dm inv n i store le hp =>
     attemptLoopAux_skip pool startIndex send dm inv n i store le hp,
   fun pool startIndex send dm inv n i store le e he =>
     attemptLoopAux_paused_no_success pool startIndex send dm inv n i store le e he⟩

theorem C1_witness :
    (attemptLoopAux [senderA, senderB] 0 (fun _ _ => SendResult.ok) DeliveryMethod.attachment
        "INV-W1" (1 + 1) 0 { pausedSenders := [("alice@example.com", 3600)], pdfStore := [] } none
      = attemptLoopAux [senderA, senderB] 0 (fun _ _ => SendResult.ok) DeliveryMethod.attachment
        "INV-W1" 1 1 { pausedSenders := [("alice@example.com", 3600)], pdfStore := [] } none)
    ∧ (attemptLoopAux [senderA, senderB] 0 (fun _ _ => SendResult.ok) DeliveryMethod.attachment
        "INV-W1" 2 0 { pausedSenders := [("alice@example.com", 3600)], pdfStore := [] } none).1
      ≠ LoopOutcome.success "alice@example.com" :=
  ⟨C1_paused_sender_never_selected.1 [senderA, senderB] 0 (fun _ _ => SendResult.ok)
      DeliveryMethod.attachment "INV-W1" 1 0
      { pausedSenders := [("alice@example.com", 3600)], pdfStore := [] } none (by decide),
   C1_paused_sender_never_selected.2 [senderA, senderB] 0 (fun _ _ => SendResult.ok)
      DeliveryMethod.attachment "INV-W1" 2 0
      { pausedSenders := [("alice@example.com", 3600)], pdfStore := [] } none
      "alice@example.com" (by decide)⟩

/-- C2: classification of a send failure by lexical keyword match on the
    raw error text.  First conjunct: a rate-limit / greylist / quota /
    bad-credential shaped error pauses the selected sender with TTL 3600 s
    (1 hour) and continues the same rotation loop with the next candidate.
    Second conjunct: any other transport error ends the loop immediately
    as a fatal error with no further sender attempted.  Third conjunct:
    that fatal error is propagated as the job's failure reason. -/
theorem C2_error_classification :
    (∀ (pool : List Sender) (startIndex : Nat) (send : Nat → Sender → SendResult)
       (dm : DeliveryMethod) (inv : String) (n i : Nat) (store : WorkerStore)
       (le : Option String) (msg : String),
       isPausedIn store.pausedSenders
         (pool.getD ((startIndex + i) % pool.length) dummySender).email = false →
       send i (pool.getD ((startIndex + i) % pool.length) dummySender) = SendResult.err msg →
       isRateLimitError msg = true →
       attemptLoopAux pool startIndex send dm inv (n + 1) i store le =
         attemptLoopAux pool startIndex send dm inv n (i + 1)
           { pdfWrite dm inv store with
             pausedSenders :=
               ((pool.getD ((startIndex + i) % pool.length) dummySender).email, 3600) ::
                 (pdfWrite dm inv store).pausedSenders }
           (some msg))
    ∧ (∀ (pool : List Sender) (startIndex : Nat) (send : Nat → Sender → SendResult)
       (dm : DeliveryMethod) (inv : String) (n i : Nat) (store : WorkerStore)
       (le : Option String) (msg : String),
       isPausedIn store.pausedSenders
         (pool.getD ((startIndex + i) % pool.length) dummySender).email = false →
       send i (pool.getD ((startIndex + i) % pool.length) dummySender) = SendResult.err msg →
       isRateLimitError msg = false →
       attemptLoopAux pool startIndex send dm inv (n + 1) i store le =
         (LoopOutcome.fatalError msg, pdfWrite dm inv store))
    ∧ (∀ (pool : List Sender) (startIndex : Nat) (send : Nat → Sender → SendResult)
       (dm : DeliveryMethod) (inv : String) (store0 : WorkerStore) (msg : String),
       ¬ pool.length = 0 →
       (attemptLoop pool startIndex send dm inv store0).1 = LoopOutcome.fatalError msg →
       runJob pool startIndex send dm inv store0 =
         (JobOutcome.failed msg, (attemptLoop pool startIndex send dm inv store0).2)) :=
  ⟨fun pool startIndex send dm inv n i store le msg hp hsend hrl =>
     attemptLoopAux_rl pool startIndex send dm inv n i store le msg hp hsend hrl,
   fun pool startIndex send dm inv n i store le msg hp hsend hrl =>
     attemptLoopAux_fatal pool startIndex send dm inv n i store le msg hp hsend hrl,
   fun pool startIndex send dm inv store0 msg hlen hft =>
     runJob_fatal pool startIndex send dm inv store0 msg hlen hft⟩

theorem C2_witness :
    (attemptLoopAux [senderA] 7 (fun _ _ => SendResult.err "Daily quota exceeded")
        DeliveryMethod.attachment "INV-W2" (0 + 1) 0 { pausedSenders := [], pdfStore := [] } none
      = attemptLoopAux [senderA] 7 (fun _ _ => SendResult.err "Daily quota exceeded")
        DeliveryMethod.attachment "INV-W2" 0 1
        { pdfWrite DeliveryMethod.attachment "INV-W2" { pausedSenders := [], pdfStore := [] } with
          pausedSenders :=
            (([senderA].getD ((7 + 0) % [senderA].length) dummySender).email, 3600) ::
              (pdfWrite DeliveryMethod.attachment "INV-W2"
                { pausedSenders := [], pdfStore := [] }).pausedSenders }
        (some "Daily quota exceeded"))
    ∧ (attemptLoopAux [senderA] 7 (fun _ _ => SendResult.err "SMTP connection lost")
        DeliveryMethod.attachment "INV-W2" (0 + 1) 0 { pausedSenders := [], pdfStore := [] } none
      = (LoopOutcome.fatalError "SMTP connection lost",
         pdfWrite DeliveryMethod.attachment "INV-W2" { pausedSenders := [], pdfStore := [] }))
    ∧ runJob [senderA] 7 (fun _ _ => SendResult.err "SMTP connection lost")
        DeliveryMethod.attachment "INV-W2" { pausedSenders := [], pdfStore := [] }
      = (JobOutcome.failed "SMTP connection lost",
         (attemptLoop [senderA] 7 (fun _ _ => SendResult.err "SMTP connection lost")
           DeliveryMethod.attachment "INV-W2" { pausedSenders := [], pdfStore := [] }).2) :=
  ⟨C2_error_classification.1 [senderA] 7 (fun _ _ => SendResult.err "Daily quota exceeded")
      DeliveryMethod.attachment "INV-W2" 0 0 { pausedSenders := [], pdfStore := [] } none
      "Daily quota exceeded" (by decide) rfl (by decide),
   C2_error_classification.2.1 [senderA] 7 (fun _ _ => SendResult.err "SMTP connection lost")
      DeliveryMethod.attachment "INV-W2" 0 0 { pausedSenders := [], pdfStore := [] } none
      "SMTP connection lost" (by decide) rfl (by decide),
   C2_error_classification.2.2 [senderA] 7 (fun _ _ => SendResult.err "SMTP connection lost")
      DeliveryMethod.attachment "INV-W2" { pausedSenders := [], pdfStore := [] }
      "SMTP connection lost" (by decide) (by decide)⟩

/-- C3 counterexample: a pool of one sender whose every send attempt
    returns a rate-limit-shaped error.  The job does fail and the
    sender's pause flag is set, but the recorded failure reason is the
    last transport error (`throw lastError` at queue.js line 491), not the
    distinct all-senders-exhausted message of line 492, contradicting the
    claim that the reason references pool exhaustion. -/
theorem C3_counterexample :
    (runJob [senderA] 0 (fun _ _ => SendResult.err "421 rate limited")
        DeliveryMethod.attachment "INV-003" { pausedSenders := [], pdfStore := [] }).1
      = JobOutcome.failed "421 rate limited"
    ∧ ¬ ("421 rate limited" = allPausedMsg)
    ∧ isPausedIn (runJob [senderA] 0 (fun _ _ => SendResult.err "421 rate limited")
        DeliveryMethod.attachment "INV-003"
        { pausedSenders := [], pdfStore := [] }).2.pausedSenders senderA.email = true := by
  refine ⟨by decide, by decide, by decide⟩

/-- C3 (amended): a job whose rotation loop ends without a successful send
    terminates in failure, and after a rate-limit-shaped failure the
    sender's pause flag is set; but the failure reason is the distinct
    all-senders-exhausted error only when no send was attempted because
    every candidate was already paused — when at least one send was
    attempted (in particular a pool of one sender whose attempts all
    return rate-limit-shaped errors), the reason is the last transport
    error instead. -/
theorem C3_amended :
    (∀ (s : Sender) (startIndex : Nat) (inv : String) (store0 : WorkerStore) (msg : String),
       isRateLimitError msg = true →
       isPausedIn store0.pausedSenders s.email = false →
       runJob [s] startIndex (fun _ _ => SendResult.err msg) DeliveryMethod.attachment inv store0
         = (JobOutcome.failed msg,
            { store0 with pausedSenders := (s.email, 3600) :: store0.pausedSenders }))
    ∧ (∀ (pool : List Sender) (startIndex : Nat) (send : Nat → Sender → SendResult)
       (dm : DeliveryMethod) (inv : String) (store0 : WorkerStore),
       ¬ pool.length = 0 →
       (∀ s ∈ pool, isPausedIn store0.pausedSenders s.email = true) →
       runJob pool startIndex send dm inv store0 = (JobOutcome.failed allPausedMsg, store0)) := by
  constructor
  · intro s startIndex inv store0 msg hrl hpause
    have hc : ([s] : List Sender).getD ((startIndex + 0) % ([s] : List Sender).length)
        dummySender = s := by
      simp [Nat.mod_one]
    have hp' : isPausedIn store0.pausedSenders
        (([s] : List Sender).getD ((startIndex + 0) % ([s] : List Sender).length)
          dummySender).email = false := by
      rw [hc]
      exact hpause
    have h1 := attemptLoopAux_rl [s] startIndex (fun _ _ => SendResult.err msg)
        DeliveryMethod.attachment inv 0 0 store0 none msg hp' rfl hrl
    unfold runJob attemptLoop
    rw [if_neg (by simp)]
    have hlen1 : ([s] : List Sender).length = 0 + 1 := by simp
    rw [hlen1, h1, attemptLoopAux_zero, hc, pdfWrite_attachment]
  · intro pool startIndex send dm inv store0 hlen hall
    unfold runJob attemptLoop
    rw [if_neg hlen]
    rw [attemptLoopAux_all_paused pool startIndex send dm inv hlen pool.length 0 store0 none hall]

theorem C3_witness :
    (runJob [senderB] 4 (fun _ _ => SendResult.err "450 mailbox busy")
        DeliveryMethod.attachment "INV-W3" { pausedSenders := [], pdfStore := [] }
      = (JobOutcome.failed "450 mailbox busy",
         { pausedSenders := [("bob@example.com", 3600)], pdfStore := [] }))
    ∧ runJob [senderA] 0 (fun _ _ => SendResult.ok) DeliveryMethod.attachment "INV-W3b"
        { pausedSenders := [("alice@example.com", 3600)], pdfStore := [] }
      = (JobOutcome.failed allPausedMsg,
         { pausedSenders := [("alice@example.com", 3600)], pdfStore := [] }) :=
  ⟨C3_amended.1 senderB 4 "INV-W3" { pausedSenders := [], pdfStore := [] }
      "450 mailbox busy" (by decide) (by decide),
   C3_amended.2 [senderA] 0 (fun _ _ => SendResult.ok) DeliveryMethod.attachment "INV-W3b"
      { pausedSenders := [("alice@example.com", 3600)], pdfStore := [] }
      (by decide) (by decide)⟩

/-- C10: a dispatch request whose email body is missing or empty is passed
    straight to the next handler: the middleware performs no cloaking
    scan, no link scan and no infrastructure verification (the decision is
    `admitted` for every possible scan and DNS oracle), unconditionally. -/
theorem C10_empty_body_admits :
    ∀ (cloakScan linkScan : String → List SecFlag) (dns : String → DnsResult)
      (senderPool : List Sender),
      segMiddleware cloakScan linkScan dns none senderPool = MiddlewareDecision.admitted
      ∧ segMiddleware cloakScan linkScan dns (some "") senderPool = MiddlewareDecision.admitted :=
  fun _ _ _ _ => ⟨rfl, rfl⟩

/-- C7: claim says a missing sender pool makes the gate skip
    infrastructure verification with only a warning and no flag.  In the
    code, `verifyInfrastructure(null)` instead returns an
    `Infrastructure Error` flag, so a non-empty body with an empty sender
    pool is always rejected: the combined flag list is non-empty from the
    absence of a sender alone (here with scans that find nothing). -/
theorem C7_code_behavior :
    segMiddleware (fun _ => []) (fun _ => []) (fun _ => DnsResult.transientError)
        (some "<p>Hello</p>") []
      = MiddlewareDecision.reject400
          [{ type := "Infrastructure Error",
             reason := "Invalid sender email format provided." }]
    ∧ ∀ dns : String → DnsResult,
        verifyInfrastructure dns none =
          [{ type := "Infrastructure Error",
             reason := "Invalid sender email format provided." }] :=
  ⟨by decide, fun _ => rfl⟩

/-- C8: the clear endpoint obliterates all queue job state (the four
    counts read back as zero) and is idempotent, but it does not touch the
    `live_dispatch_logs` telemetry list: a status query right after clear
    still returns the old telemetry events, contradicting the claim that
    the telemetry list is empty after clear.  (The telemetry list is only
    reset by the next dispatch submission.) -/
theorem C8_code_behavior :
    dispatchStatus (clearEndpoint
        { waiting := 2, active := 1, completed := 3, failed := 1,
          liveLogs := ["job 1 processed"] })
      = { waiting := 0, active := 0, completed := 0, failed := 0,
          liveLogs := ["job 1 processed"] }
    ∧ clearEndpoint (clearEndpoint
        { waiting := 2, active := 1, completed := 3, failed := 1,
          liveLogs := ["job 1 processed"] })
      = clearEndpoint
        { waiting := 2, active := 1, completed := 3, failed := 1,
          liveLogs := ["job 1 processed"] }
    ∧ ¬ (["job 1 processed"] = ([] : List String)) :=
  ⟨rfl, rfl, by decide⟩

/-- C9 counterexample: a link-mode job whose only send attempt fails with
    a non-rate-limit transport error.  The job fails (no success), yet the
    rendered document has been persisted under its invoice-number key with
    the 30-day TTL, because the `setex` happens before `sendMail` —
    contradicting the claim that persistence happens only upon the send
    attempt's success. -/
theorem C9_counterexample :
    runJob [senderA] 0 (fun _ _ => SendResult.err "Connection refused") DeliveryMethod.link
        "INV-009" { pausedSenders := [], pdfStore := [] }
      = (JobOutcome.failed "Connection refused",
         { pausedSenders := [], pdfStore := [("invoice_pdf:INV-009", 86400 * 30)] })
    ∧ ("invoice_pdf:INV-009", 86400 * 30) ∈
        (runJob [senderA] 0 (fun _ _ => SendResult.err "Connection refused") DeliveryMethod.link
          "INV-009" { pausedSenders := [], pdfStore := [] }).2.pdfStore := by
  refine ⟨by decide, by decide⟩

/-- C9 (amended): the persistent document store is written if and only if
    the delivery method is link and a send attempt occurs; the write
    (base64 by invoice number, 30-day TTL) happens during the attempt
    before the send, so it is present whatever the attempt's outcome
    (success, fatal error, or exhaustion after rate-limit errors), and in
    attachment mode the store is never written for the job. -/
theorem C9_amended :
    (∀ (pool : List Sender) (startIndex : Nat) (send : Nat → Sender → SendResult)
       (inv : String) (n i : Nat) (store : WorkerStore) (le : Option String),
       ((attemptLoopAux pool startIndex send DeliveryMethod.attachment inv n i store le).2).pdfStore
         = store.pdfStore)
    ∧ (∀ (pool : List Sender) (startIndex : Nat) (send : Nat → Sender → SendResult)
       (inv : String) (store0 : WorkerStore),
       ((attemptLoop pool startIndex send DeliveryMethod.link inv store0).1 =
           LoopOutcome.exhausted none →
         ((attemptLoop pool startIndex send DeliveryMethod.link inv store0).2).pdfStore
           = store0.pdfStore)
       ∧ (∀ e, (attemptLoop pool startIndex send DeliveryMethod.link inv store0).1 =
           LoopOutcome.success e →
         ("invoice_pdf:" ++ inv, 86400 * 30) ∈
           ((attemptLoop pool startIndex send DeliveryMethod.link inv store0).2).pdfStore)
       ∧ (∀ m, (attemptLoop pool startIndex send DeliveryMethod.link inv store0).1 =
           LoopOutcome.fatalError m →
         ("invoice_pdf:" ++ inv, 86400 * 30) ∈
           ((attemptLoop pool startIndex send DeliveryMethod.link inv store0).2).pdfStore)
       ∧ (∀ m, (attemptLoop pool startIndex send DeliveryMethod.link inv store0).1 =
           LoopOutcome.exhausted (some m) →
         ("invoice_pdf:" ++ inv, 86400 * 30) ∈
           ((attemptLoop pool startIndex send DeliveryMethod.link inv store0).2).pdfStore)) := by
  constructor
  · intro pool startIndex send inv n i store le
    exact attemptLoopAux_pdf_attachment pool startIndex send inv n i store le
  · intro pool startIndex send inv store0
    refine ⟨?_, ?_, ?_, ?_⟩
    · intro hout
      unfold attemptLoop at hout ⊢
      rw [attemptLoopAux_exhausted_none_store pool startIndex send DeliveryMethod.link inv
        pool.length 0 store0 hout]
    · intro e hout
      exact attemptLoopAux_link_writes pool startIndex send inv pool.length 0 store0 none
        (Or.inl ⟨e, hout⟩)
    · intro m hout
      exact attemptLoopAux_link_writes pool startIndex send inv pool.length 0 store0 none
        (Or.inr (Or.inl ⟨m, hout⟩))
    · intro m hout
      exact attemptLoopAux_link_writes pool startIndex send inv pool.length 0 store0 none
        (Or.inr (Or.inr ⟨rfl, m, hout⟩))

theorem C9_witness :
    ("invoice_pdf:" ++ "INV-W9", 86400 * 30) ∈
      ((attemptLoop [senderA] 0 (fun _ _ => SendResult.err "mailbox does not exist")
        DeliveryMethod.link "INV-W9" { pausedSenders := [], pdfStore := [] }).2).pdfStore :=
  ((C9_amended.2 [senderA] 0 (fun _ _ => SendResult.err "mailbox does not exist") "INV-W9"
      { pausedSenders := [], pdfStore := [] }).2.2.1) "mailbox does not exist" (by decide)

/-- C6: the rotation start offset is the job index modulo the pool size,
    and over the job indices `0..N-1` these offsets take every value in
    `0..N-1` exactly once (first conjunct: the list of offsets is exactly
    `range N`, so each sender position starts exactly one of those jobs);
    the second conjunct ties the offset to the loop: the first candidate a
    job examines is `pool[rotationStartOffset]`, and if it is not paused
    and its send succeeds, it is the job's sender. -/
theorem C6_rotation_offsets :
    (∀ N : Nat, 0 < N →
       (List.range N).map (fun j => rotationStartOffset j N) = List.range N)
    ∧ (∀ (pool : List Sender) (startIndex : Nat) (send : Nat → Sender → SendResult)
       (dm : DeliveryMethod) (inv : String) (store0 : WorkerStore),
       ¬ pool.length = 0 →
       isPausedIn store0.pausedSenders
         (pool.getD (rotationStartOffset startIndex pool.length) dummySender).email = false →
       send 0 (pool.getD (rotationStartOffset startIndex pool.length) dummySender) =
         SendResult.ok →
       (runJob pool startIndex send dm inv store0).1 =
         JobOutcome.completed inv
           (pool.getD (rotationStartOffset startIndex pool.length) dummySender).email) := by
  constructor
  · intro N hN
    have h : ∀ j ∈ List.range N, rotationStartOffset j N = j := fun j hj =>
      Nat.mod_eq_of_lt (List.mem_range.mp hj)
    rw [List.map_congr_left h]
    exact List.map_id (List.range N)
  · intro pool startIndex send dm inv store0 hlen hnp hok
    have hco : (startIndex + 0) % pool.length = rotationStartOffset startIndex pool.length := by
      simp [rotationStartOffset]
    have hnp' : isPausedIn store0.pausedSenders
        (pool.getD ((startIndex + 0) % pool.length) dummySender).email = false := by
      rw [hco]
      exact hnp
    have hok' : send 0 (pool.getD ((startIndex + 0) % pool.length) dummySender) =
        SendResult.ok := by
      rw [hco]
      exact hok
    obtain ⟨n, hn⟩ : ∃ n, pool.length = n + 1 := by
      cases hpl : pool.length with
      | zero => exact absurd hpl hlen
      | succ n => exact ⟨n, rfl⟩
    have h1 := attemptLoopAux_ok pool startIndex send dm inv n 0 store0 none hnp' hok'
    unfold runJob attemptLoop
    rw [if_neg hlen]
    conv_lhs => rw [hn]
    rw [h1, hco]

theorem C6_witness :
    ((List.range 3).map (fun j => rotationStartOffset j 3) = List.range 3)
    ∧ (runJob [senderA, senderB] 1 (fun _ _ => SendResult.ok) DeliveryMethod.attachment
        "INV-W6" { pausedSenders := [], pdfStore := [] }).1
      = JobOutcome.completed "INV-W6"
          (([senderA, senderB] : List Sender).getD
            (rotationStartOffset 1 ([senderA, senderB] : List Sender).length)
            dummySender).email :=
  ⟨C6_rotation_offsets.1 3 (by decide),
   C6_rotation_offsets.2 [senderA, senderB] 1 (fun _ _ => SendResult.ok)
     DeliveryMethod.attachment "INV-W6" { pausedSenders := [], pdfStore := [] }
     (by decide) (by decide) (by decide)⟩

/-! ## Lemmas for the spintax claims -/

/-- The oracle that always picks the first alternative. -/
def pickZero : Nat → List Char → Nat := fun _ _ => 0

/-- Nested spintax family: `nestT 0 = "a"`,
    `nestT (n+1) = openBrace ++ nestT n ++ "|c" ++ closeBrace`, so `nestT n`
    is a spintax span nested `n` levels deep whose resolution needs `n`
    re-scan passes. -/
def nestT : Nat → List Char
  | 0 => ['a']
  | n + 1 => '\x7b' :: (nestT n ++ ['|', 'c', '\x7d'])

/-- A pass copies text with no opening brace verbatim. -/
lemma onePass_noOpen (pick : Nat → List Char → Nat) :
    ∀ (s : List Char), (∀ c ∈ s, ¬ c = '\x7b') → ∀ k, onePass pick k s = (s, k) := by
  intro s
  induction s with
  | nil =>
    intro _ k
    exact onePass_nil pick k
  | cons c rest ih =>
    intro hs k
    have hc : ¬ c = '\x7b' := hs c (List.mem_cons_self c rest)
    rw [onePass_copy pick k c rest hc, ih (fun x hx => hs x (List.mem_cons_of_mem c hx)) k]

/-- One pass on `nestT (n+1)` (followed by pipe-closed garbage with no
    opening brace) peels exactly one nesting level, consuming one match. -/
lemma onePass_nestT (n : Nat) : ∀ (k : Nat) (s : List Char),
    (∀ c ∈ s, ¬ c = '\x7b') →
    onePass pickZero k (nestT (n + 1) ++ s) = (nestT n ++ s, k + 1) := by
  induction n with
  | zero =>
    intro k s hs
    have hrest : (['a', '|', 'c', '\x7d'] ++ s : List Char) = 'a' :: '|' :: 'c' :: '\x7d' :: s := by
      simp
    have hfa : notBraceChar 'a' = true := by decide
    have hfp : notBraceChar '|' = true := by decide
    have hfc : notBraceChar 'c' = true := by decide
    have hfd : notBraceChar '\x7d' = false := by decide
    have hdw : ('a' :: '|' :: 'c' :: '\x7d' :: s).dropWhile notBraceChar = '\x7d' :: s := by
      rw [List.dropWhile_cons_of_pos hfa, List.dropWhile_cons_of_pos hfp,
        List.dropWhile_cons_of_pos hfc, List.dropWhile_cons_of_neg (by simp [hfd])]
    have htw : ('a' :: '|' :: 'c' :: '\x7d' :: s).takeWhile notBraceChar = ['a', '|', 'c'] := by
      rw [List.takeWhile_cons_of_pos hfa, List.takeWhile_cons_of_pos hfp,
        List.takeWhile_cons_of_pos hfc, List.takeWhile_cons_of_neg (by simp [hfd])]
    have hcont : (['a', '|', 'c'] : List Char).contains '|' = true := by decide
    have hstep : nestT 1 ++ s = '\x7b' :: ('a' :: '|' :: 'c' :: '\x7d' :: s) := by
      show '\x7b' :: ((['a'] ++ ['|', 'c', '\x7d']) ++ s) = _
      simp
    rw [hstep, onePass_span pickZero k _ s hdw (by rw [htw]; exact hcont)]
    rw [htw]
    rw [onePass_noOpen pickZero s hs (k + 1)]
    show ((splitPipe ['a', '|', 'c']).getD (pickZero k ['a', '|', 'c'] %
        (splitPipe ['a', '|', 'c']).length) [] ++ s, k + 1) = (nestT 0 ++ s, k + 1)
    rfl
  | succ n ih =>
    intro k s hs
    have hstep : nestT (n + 2) ++ s =
        '\x7b' :: (nestT (n + 1) ++ ('|' :: 'c' :: '\x7d' :: s)) := by
      show '\x7b' :: ((nestT (n + 1) ++ ['|', 'c', '\x7d']) ++ s) = _
      simp
    have hhead : ∃ t, nestT (n + 1) = '\x7b' :: t := ⟨nestT n ++ ['|', 'c', '\x7d'], rfl⟩
    obtain ⟨t, ht⟩ := hhead
    have hno : ∀ tail, ¬ (nestT (n + 1) ++ ('|' :: 'c' :: '\x7d' :: s)).dropWhile notBraceChar
        = '\x7d' :: tail := by
      intro tail hcon
      rw [ht] at hcon
      rw [List.cons_append, List.dropWhile_cons_of_neg (by decide)] at hcon
      exact absurd (List.head_eq_of_cons_eq hcon) (by decide)
    have hs' : ∀ c ∈ ('|' :: 'c' :: '\x7d' :: s), ¬ c = '\x7b' := by
      intro c hc
      rcases List.mem_cons.mp hc with h | hc
      · subst h; decide
      rcases List.mem_cons.mp hc with h | hc
      · subst h; decide
      rcases List.mem_cons.mp hc with h | hc
      · subst h; decide
      · exact hs c hc
    rw [hstep, onePass_skipB pickZero k _ hno, ih k ('|' :: 'c' :: '\x7d' :: s) hs']
    show ('\x7b' :: (nestT n ++ ('|' :: 'c' :: '\x7d' :: s)), k + 1) = (nestT (n + 1) ++ s, k + 1)
    have : nestT (n + 1) ++ s = '\x7b' :: (nestT n ++ ('|' :: 'c' :: '\x7d' :: s)) := by
      show '\x7b' :: ((nestT n ++ ['|', 'c', '\x7d']) ++ s) = _
      simp
    rw [this]

/-- Every nested spintax text still matches the scan. -/
lemma hasSpintaxMatch_nestT (n : Nat) : ∀ (s : List Char),
    hasSpintaxMatch (nestT (n + 1) ++ s) = true := by
  induction n with
  | zero =>
    intro s
    have hfa : notBraceChar 'a' = true := by decide
    have hfp : notBraceChar '|' = true := by decide
    have hfc : notBraceChar 'c' = true := by decide
    have hfd : notBraceChar '\x7d' = false := by decide
    have hdw : ('a' :: '|' :: 'c' :: '\x7d' :: s).dropWhile notBraceChar = '\x7d' :: s := by
      rw [List.dropWhile_cons_of_pos hfa, List.dropWhile_cons_of_pos hfp,
        List.dropWhile_cons_of_pos hfc, List.dropWhile_cons_of_neg (by simp [hfd])]
    have htw : ('a' :: '|' :: 'c' :: '\x7d' :: s).takeWhile notBraceChar = ['a', '|', 'c'] := by
      rw [List.takeWhile_cons_of_pos hfa, List.takeWhile_cons_of_pos hfp,
        List.takeWhile_cons_of_pos hfc, List.takeWhile_cons_of_neg (by simp [hfd])]
    have hstep : nestT 1 ++ s = '\x7b' :: ('a' :: '|' :: 'c' :: '\x7d' :: s) := by
      show '\x7b' :: ((['a'] ++ ['|', 'c', '\x7d']) ++ s) = _
      simp
    rw [hstep]
    show (decide ('\x7b' = '\x7b') && spanHere ('a' :: '|' :: 'c' :: '\x7d' :: s))
        || hasSpintaxMatch ('a' :: '|' :: 'c' :: '\x7d' :: s) = true
    rw [spanHere_pos _ s hdw (by rw [htw]; decide)]
    simp
  | succ n ih =>
    intro s
    have hstep : nestT (n + 2) ++ s =
        '\x7b' :: (nestT (n + 1) ++ ('|' :: 'c' :: '\x7d' :: s)) := by
      show '\x7b' :: ((nestT (n + 1) ++ ['|', 'c', '\x7d']) ++ s) = _
      simp
    rw [hstep, hasSpintaxMatch_cons, ih ('|' :: 'c' :: '\x7d' :: s)]
    simp

/-- Resolving `nestT n` takes exactly `n` passes with the first-choice
    oracle: one nesting level per pass. -/
lemma numPasses_nestT (n : Nat) : ∀ (k : Nat), numPasses pickZero k (nestT n) = n := by
  induction n with
  | zero =>
    intro k
    have h0 : hasSpintaxMatch (nestT 0) = false := by decide
    rw [numPasses, parseSpintaxAux_neg pickZero k (nestT 0) h0]
  | succ n ih =>
    intro k
    have hm : hasSpintaxMatch (nestT (n + 1)) = true := by
      have := hasSpintaxMatch_nestT n []
      rwa [List.append_nil] at this
    have hop : onePass pickZero k (nestT (n + 1)) = (nestT n, k + 1) := by
      have := onePass_nestT n k [] (by intro c hc; simp at hc)
      rwa [List.append_nil, List.append_nil] at this
    rw [numPasses, parseSpintaxAux_pos pickZero k (nestT (n + 1)) hm]
    show (parseSpintaxAux pickZero (onePass pickZero k (nestT (n + 1))).2
        (onePass pickZero k (nestT (n + 1))).1).2 + 1 = n + 1
    rw [hop]
    show numPasses pickZero (k + 1) (nestT n) + 1 = n + 1
    rw [ih (k + 1)]

/-- The number of passes is bounded by the brace count of the input
    (strong induction on the brace count). -/
lemma numPasses_le_braceCount (N : Nat) : ∀ (pick : Nat → List Char → Nat) (k : Nat)
    (text : List Char), braceCount text ≤ N → numPasses pick k text ≤ braceCount text := by
  induction N with
  | zero =>
    intro pick k text hbc
    by_cases h : hasSpintaxMatch text = true
    · have := (onePass_bc pick k text).2 h
      omega
    · have h' : hasSpintaxMatch text = false := by simpa using h
      rw [numPasses, parseSpintaxAux_neg pick k text h']
      exact Nat.zero_le _
  | succ N ih =>
    intro pick k text hbc
    by_cases h : hasSpintaxMatch text = true
    · have hlt := (onePass_bc pick k text).2 h
      have h2 := ih pick (onePass pick k text).2 (onePass pick k text).1 (by omega)
      rw [numPasses] at h2
      rw [numPasses, parseSpintaxAux_pos pick k text h]
      show (parseSpintaxAux pick (onePass pick k text).2 (onePass pick k text).1).2 + 1
          ≤ braceCount text
      omega
    · have h' : hasSpintaxMatch text = false := by simpa using h
      rw [numPasses, parseSpintaxAux_neg pick k text h']
      exact Nat.zero_le _

/-- The final text of the re-scan loop has no remaining match (strong
    induction on the brace count). -/
lemma parseSpintax_no_match (N : Nat) : ∀ (pick : Nat → List Char → Nat) (k : Nat)
    (text : List Char), braceCount text ≤ N →
    hasSpintaxMatch (parseSpintax pick k text) = false := by
  induction N with
  | zero =>
    intro pick k text hbc
    by_cases h : hasSpintaxMatch text = true
    · have := (onePass_bc pick k text).2 h
      omega
    · have h' : hasSpintaxMatch text = false := by simpa using h
      rw [parseSpintax, parseSpintaxAux_neg pick k text h']
      exact h'
  | succ N ih =>
    intro pick k text hbc
    by_cases h : hasSpintaxMatch text = true
    · have hlt := (onePass_bc pick k text).2 h
      rw [parseSpintax, parseSpintaxAux_pos pick k text h]
      show hasSpintaxMatch
        (parseSpintaxAux pick (onePass pick k text).2 (onePass pick k text).1).1 = false
      have := ih pick (onePass pick k text).2 (onePass pick k text).1 (by omega)
      rwa [parseSpintax] at this
    · have h' : hasSpintaxMatch text = false := by simpa using h
      rw [parseSpintax, parseSpintaxAux_neg pick k text h']
      exact h'

/-- C4 counterexample: the claim asserts a fixed safety iteration cap
    bounding the number of re-scan passes for every input.  No such cap
    exists in `parseSpintax` (the while loop of queue.js lines 49-54 is
    uncapped): for any proposed cap, the nested spintax input
    `nestT (cap+1)` needs `cap+1` passes. -/
theorem C4_counterexample :
    ¬ ∃ cap : Nat, ∀ (pick : Nat → List Char → Nat) (k : Nat) (text : List Char),
        numPasses pick k text ≤ cap := by
  rintro ⟨cap, hcap⟩
  have h := hcap pickZero 0 (nestT (cap + 1))
  rw [numPasses_nestT (cap + 1) 0] at h
  omega

/-- C4 (amended): spintax resolution is iterative — after each
    substitution pass the text is re-scanned until no span pattern remains
    — and it terminates on every input (including adversarial input), but
    not because of a safety iteration cap (the code has none): each pass
    strictly decreases the number of brace characters, so the number of
    passes is bounded by the brace count of the input. -/
theorem C4_amended :
    ∀ (pick : Nat → List Char → Nat) (k : Nat) (text : List Char),
      numPasses pick k text ≤ braceCount text :=
  fun pick k text => numPasses_le_braceCount (braceCount text) pick k text (Nat.le_refl _)

/-! ## Preservation of pipe-free placeholder spans -/

lemma infixOfPre (l t : List Char) (h : l <+: t) : l <:+: t := by
  obtain ⟨r, hr⟩ := h
  exact ⟨[], r, by simpa using hr⟩

lemma infixConsRight (l t : List Char) (c : Char) (h : l <:+: t) : l <:+: c :: t := by
  obtain ⟨u, v, huv⟩ := h
  exact ⟨c :: u, v, by rw [← huv]; rfl⟩

lemma infixAppendLeft (l s t : List Char) (h : l <:+: t) : l <:+: s ++ t := by
  obtain ⟨u, v, huv⟩ := h
  exact ⟨s ++ u, v, by rw [← huv]; simp⟩

/-- The maximal non-brace run taken before a guaranteed closing brace is a
    sublist of the text before that brace. -/
lemma takeWhileSubOfClosed : ∀ (l t : List Char),
    (List.takeWhile notBraceChar (l ++ '\x7d' :: t)).Sublist l := by
  intro l
  induction l with
  | nil =>
    intro t
    rw [List.nil_append, List.takeWhile_cons_of_neg (by decide)]
  | cons c l' ih =>
    intro t
    rw [List.cons_append]
    by_cases hc : notBraceChar c = true
    · rw [List.takeWhile_cons_of_pos hc]
      exact (ih t).cons₂ c
    · rw [List.takeWhile_cons_of_neg (by simpa using hc)]
      exact List.nil_sublist _

/-- A pass copies a pipe-free prefix followed by a closing brace verbatim:
    no match can start inside it. -/
lemma onePass_pre (pick : Nat → List Char → Nat) :
    ∀ (M : List Char), '|' ∉ M → ∀ (k : Nat) (tail : List Char),
      onePass pick k (M ++ '\x7d' :: tail) =
        (M ++ '\x7d' :: (onePass pick k tail).1, (onePass pick k tail).2) := by
  intro M
  induction M with
  | nil =>
    intro _ k tail
    rw [List.nil_append, onePass_copy pick k _ tail (by decide), List.nil_append]
  | cons c M' ih =>
    intro hM k tail
    have hM' : '|' ∉ M' := fun h => hM (List.mem_cons_of_mem c h)
    by_cases hc : c = '\x7b'
    · subst hc
      rw [List.cons_append]
      have hne : (M' ++ '\x7d' :: tail).dropWhile notBraceChar ≠ [] := by
        intro hcon
        rw [List.dropWhile_eq_nil_iff] at hcon
        have := hcon '\x7d' (by simp)
        exact absurd this (by decide)
      rcases hd : (M' ++ '\x7d' :: tail).dropWhile notBraceChar with _ | ⟨d, t2⟩
      · exact absurd hd hne
      · by_cases hdq : d = '\x7d'
        · subst hdq
          have hcont : (List.takeWhile notBraceChar (M' ++ '\x7d' :: tail)).contains '|'
              = false := by
            by_contra hcc
            have h1 : (List.takeWhile notBraceChar (M' ++ '\x7d' :: tail)).contains '|'
                = true := by simpa using hcc
            have h2 : '|' ∈ List.takeWhile notBraceChar (M' ++ '\x7d' :: tail) := by
              simpa using h1
            exact hM (List.mem_cons_of_mem _
              (List.Sublist.subset (takeWhileSubOfClosed M' tail) h2))
          rw [onePass_skipA pick k (M' ++ '\x7d' :: tail) t2 hd hcont, ih hM' k tail]
          rfl
        · have hno : ∀ t3, ¬ (M' ++ '\x7d' :: tail).dropWhile notBraceChar = '\x7d' :: t3 := by
            intro t3 hcon
            rw [hd] at hcon
            exact hdq (List.head_eq_of_cons_eq hcon)
          rw [onePass_skipB pick k (M' ++ '\x7d' :: tail) hno, ih hM' k tail]
          rfl
    · rw [List.cons_append, onePass_copy pick k c _ hc, ih hM' k tail]
      rfl

/-- The closing part of a pipe-free span cannot be a prefix of piped
    brace-free contents followed by the match's closing brace. -/
lemma spanNotIntoContent : ∀ (content M t : List Char), '|' ∉ M →
    (∀ c ∈ content, notBraceChar c = true) → '|' ∈ content →
    ¬ ((M ++ ['\x7d']) <+: (content ++ '\x7d' :: t)) := by
  intro content
  induction content with
  | nil =>
    intro M t _ _ hpipe
    simp at hpipe
  | cons c C' ih =>
    intro M t hM hnb hpipe hpre
    cases M with
    | nil =>
      rw [List.nil_append, List.cons_append] at hpre
      have h1 := (List.cons_prefix_cons.mp hpre).1
      have hcb := hnb c (List.mem_cons_self c C')
      rw [← h1] at hcb
      exact absurd hcb (by decide)
    | cons m M' =>
      rw [List.cons_append, List.cons_append] at hpre
      obtain ⟨hmc, hpre'⟩ := List.cons_prefix_cons.mp hpre
      rcases List.mem_cons.mp hpipe with hcp | hcp
      · apply hM
        rw [hmc, ← hcp]
        exact List.mem_cons_self _ _
      · exact ih M' t (fun h => hM (List.mem_cons_of_mem m h))
          (fun x hx => hnb x (List.mem_cons_of_mem c hx)) hcp hpre'

/-- A span pattern occurring in brace-free contents followed by a closing
    brace and a tail must occur in the tail. -/
lemma spanOutOfContent : ∀ (content t M : List Char),
    (∀ c ∈ content, notBraceChar c = true) →
    (('\x7b' :: M ++ ['\x7d']) <:+: (content ++ '\x7d' :: t)) →
    ('\x7b' :: M ++ ['\x7d']) <:+: t := by
  intro content
  induction content with
  | nil =>
    intro t M _ h
    rw [List.nil_append] at h
    rcases List.infix_cons_iff.mp h with hpre | hinf
    · exact absurd (List.cons_prefix_cons.mp hpre).1 (by decide)
    · exact hinf
  | cons c C' ih =>
    intro t M hnb h
    rw [List.cons_append] at h
    rcases List.infix_cons_iff.mp h with hpre | hinf
    · have h1 := (List.cons_prefix_cons.mp hpre).1
      have hcb := hnb c (List.mem_cons_self c C')
      rw [← h1] at hcb
      exact absurd hcb (by decide)
    · exact ih t M (fun x hx => hnb x (List.mem_cons_of_mem c hx)) hinf

/-- One pass never consumes or alters a pipe-free brace-delimited span:
    every occurrence in the input still occurs in the output. -/
lemma onePass_keeps_span (pick : Nat → List Char → Nat) :
    ∀ (k : Nat) (cs : List Char) (M : List Char), '|' ∉ M →
      ('\x7b' :: M ++ ['\x7d']) <:+: cs →
      ('\x7b' :: M ++ ['\x7d']) <:+: (onePass pick k cs).1 := by
  intro k cs
  induction k, cs using onePass.induct pick with
  | case1 k =>
    intro M _ h
    obtain ⟨u, v, huv⟩ := h
    exact absurd huv (by simp)
  | case2 k rest tail hdw hp ih =>
    intro M hM h
    have hrest : rest = rest.takeWhile notBraceChar ++ '\x7d' :: tail := by
      rw [← hdw]
      exact (List.takeWhile_append_dropWhile notBraceChar rest).symm
    rw [onePass_span pick k rest tail hdw hp]
    rcases List.infix_cons_iff.mp h with hpre | hinf
    · exfalso
      have h2 : (M ++ ['\x7d']) <+: rest := (List.cons_prefix_cons.mp hpre).2
      rw [hrest] at h2
      refine spanNotIntoContent (rest.takeWhile notBraceChar) M tail hM
        (fun c hc => List.mem_takeWhile_imp hc) ?_ h2
      simpa using hp
    · rw [hrest] at hinf
      have h3 := spanOutOfContent (rest.takeWhile notBraceChar) tail M
        (fun c hc => List.mem_takeWhile_imp hc) hinf
      exact infixAppendLeft _ _ _ (ih M hM h3)
  | case3 k rest tail hdw hp ih =>
    intro M hM h
    have hp' : (rest.takeWhile notBraceChar).contains '|' = false := by simpa using hp
    rw [onePass_skipA pick k rest tail hdw hp']
    rcases List.infix_cons_iff.mp h with hpre | hinf
    · have h2 : (M ++ ['\x7d']) <+: rest := (List.cons_prefix_cons.mp hpre).2
      obtain ⟨t', ht'⟩ := h2
      have hr2 : rest = M ++ '\x7d' :: t' := by
        rw [← ht']
        simp
      rw [hr2, onePass_pre pick M hM k t']
      apply infixOfPre
      exact List.cons_prefix_cons.mpr ⟨rfl, ⟨(onePass pick k t').1, by simp⟩⟩
    · exact infixConsRight _ _ _ (ih M hM hinf)
  | case4 k rest hno ih =>
    intro M hM h
    rw [onePass_skipB pick k rest (fun tail hcon => hno tail hcon)]
    rcases List.infix_cons_iff.mp h with hpre | hinf
    · have h2 : (M ++ ['\x7d']) <+: rest := (List.cons_prefix_cons.mp hpre).2
      obtain ⟨t', ht'⟩ := h2
      have hr2 : rest = M ++ '\x7d' :: t' := by
        rw [← ht']
        simp
      rw [hr2, onePass_pre pick M hM k t']
      apply infixOfPre
      exact List.cons_prefix_cons.mpr ⟨rfl, ⟨(onePass pick k t').1, by simp⟩⟩
    · exact infixConsRight _ _ _ (ih M hM hinf)
  | case5 k c rest hc ih =>
    intro M hM h
    rw [onePass_copy pick k c rest hc]
    rcases List.infix_cons_iff.mp h with hpre | hinf
    · exact absurd (List.cons_prefix_cons.mp hpre).1 (fun he => hc he.symm)
    · exact infixConsRight _ _ _ (ih M hM hinf)

/-- Iterating passes still preserves every pipe-free brace-delimited span
    (strong induction on the brace count). -/
lemma parseSpintax_keeps_span (N : Nat) : ∀ (pick : Nat → List Char → Nat) (k : Nat)
    (text M : List Char), braceCount text ≤ N → '|' ∉ M →
    ('\x7b' :: M ++ ['\x7d']) <:+: text →
    ('\x7b' :: M ++ ['\x7d']) <:+: parseSpintax pick k text := by
  induction N with
  | zero =>
    intro pick k text M hbc hM h
    by_cases hmt : hasSpintaxMatch text = true
    · have := (onePass_bc pick k text).2 hmt
      omega
    · have h' : hasSpintaxMatch text = false := by simpa using hmt
      rw [parseSpintax, parseSpintaxAux_neg pick k text h']
      exact h
  | succ N ih =>
    intro pick k text M hbc hM h
    by_cases hmt : hasSpintaxMatch text = true
    · have hlt := (onePass_bc pick k text).2 hmt
      rw [parseSpintax, parseSpintaxAux_pos pick k text hmt]
      show ('\x7b' :: M ++ ['\x7d']) <:+:
        (parseSpintaxAux pick (onePass pick k text).2 (onePass pick k text).1).1
      have h2 := onePass_keeps_span pick k text M hM h
      have h3 := ih pick (onePass pick k text).2 (onePass pick k text).1 M (by omega) hM h2
      rwa [parseSpintax] at h3
    · have h' : hasSpintaxMatch text = false := by simpa using hmt
      rw [parseSpintax, parseSpintaxAux_neg pick k text h']
      exact h

/-- C5: for every input and every random outcome, the output of spintax
    resolution contains no remaining span the scan would match (a brace
    pair whose non-brace contents include a pipe — the code's own
    `spintaxRegex.test`); and every brace-delimited span whose contents
    contain no pipe character (such as a double-braced Name placeholder)
    still occurs verbatim in the output. -/
theorem C5_spintax_output :
    (∀ (pick : Nat → List Char → Nat) (k : Nat) (text : List Char),
       hasSpintaxMatch (parseSpintax pick k text) = false)
    ∧ (∀ (pick : Nat → List Char → Nat) (k : Nat) (text M : List Char),
       '|' ∉ M →
       ('\x7b' :: M ++ ['\x7d']) <:+: text →
       ('\x7b' :: M ++ ['\x7d']) <:+: parseSpintax pick k text) :=
  ⟨fun pick k text => parseSpintax_no_match (braceCount text) pick k text (Nat.le_refl _),
   fun pick k text M hM h =>
     parseSpintax_keeps_span (braceCount text) pick k text M (Nat.le_refl _) hM h⟩

theorem C5_witness :
    (('\x7b' :: (['\x7b', 'N', 'a', 'm', 'e', '\x7d'] : List Char) ++ ['\x7d']) <:+:
      parseSpintax pickZero 0
        ['\x7b', 'H', 'i', '|', 'Y', 'o', '\x7d', ' ',
         '\x7b', '\x7b', 'N', 'a', 'm', 'e', '\x7d', '\x7d'])
    ∧ hasSpintaxMatch (parseSpintax pickZero 0
        ['\x7b', 'H', 'i', '|', 'Y', 'o', '\x7d', ' ',
         '\x7b', '\x7b', 'N', 'a', 'm', 'e', '\x7d', '\x7d']) = false :=
  ⟨C5_spintax_output.2 pickZero 0
      ['\x7b', 'H', 'i', '|', 'Y', 'o', '\x7d', ' ',
       '\x7b', '\x7b', 'N', 'a', 'm', 'e', '\x7d', '\x7d']
      ['\x7b', 'N', 'a', 'm', 'e', '\x7d'] (by decide) (by decide),
   C5_spintax_output.1 pickZero 0
      ['\x7b', 'H', 'i', '|', 'Y', 'o', '\x7d', ' ',
       '\x7b', '\x7b', 'N', 'a', 'm', 'e', '\x7d', '\x7d']⟩

end RoxInvoice
